import Mathlib

/-!
Verification of the CHIP-8 interpreter in `src/main.cpp`.

The machine state (`cpu_t`), the instruction executor (`execute`), the startup
sequence (`set_font_sprites`, `load_rom`, `main`'s initialisation) and one
iteration of the scheduler loop in `main` are shallowly embedded below.
Machine integers are modelled as `Nat` with explicit `% 2^w` at every point
where the C++ performs wrapping arithmetic; `uint8` register cells hold values
below 256 in every state the program can construct, and writes mask with
`% 256` exactly where the C++ types truncate.  The `std::stack` of return
addresses is a `List` whose head is the top of the stack.  The display and
keyboard collaborators appear only through their data: the keyboard sample
taken once per loop iteration is a parameter of `step`, and the random byte
drawn by `CXNN` is a parameter of `execute`.
-/

namespace Chip8

/-- Pointwise update of a function, modelling a single array store. -/
def upd {α : Type} (f : Nat → α) (k : Nat) (v : α) : Nat → α := fun i => if i = k then v else f i

/-- Write a list of bytes at consecutive addresses, modelling `memcpy`/`fread`. -/
def writeBytes (f : Nat → Nat) : Nat → List Nat → (Nat → Nat)
  | _, [] => f
  | base, b :: rest => writeBytes (upd f base b) (base + 1) rest

/-- Total memory size in bytes (`mem_size`). -/
def mem_size : Nat := 4096

/-- First program address (`start_addr`, 0x200). -/
def start_addr : Nat := 0x200

/-- Display width in pixels (`display_w`). -/
def display_w : Nat := 64

/-- Display height in pixels (`display_h`). -/
def display_h : Nat := 32

/-- Bytes per built-in font sprite (`font_sprite_size`). -/
def font_sprite_size : Nat := 5

/-- Instruction clock frequency (`clock_freq`, 700 Hz). -/
def clock_freq : Nat := 700

/-- Instructions per 60 Hz timer tick: `static_cast<size_t>(clock_freq / 60.)`
truncates 11.66… to 11, as does `Nat` division. -/
def clocks60 : Nat := clock_freq / 60

/-- The machine state `cpu_t`.  `ram`, `register_vx`, `display` and `keys` are
fixed-size C arrays, modelled as functions out of `Nat`; only indices below
4096, 16, 2048 and 16 respectively are ever used.  `last_key_pressed` is the
C++ `int` initialised to `-1`. -/
structure Cpu where
  ram : Nat → Nat
  register_vx : Nat → Nat
  register_delay : Nat
  register_sound : Nat
  register_index : Nat
  pc : Nat
  stack : List Nat
  display : Nat → Nat
  keys : Nat → Bool
  last_key_pressed : Int
  redraw_required : Bool

/-- The zero-initialised `cpu_t cpu{}` built at the top of `main`. -/
def initCpu : Cpu where
  ram := fun _ => 0
  register_vx := fun _ => 0
  register_delay := 0
  register_sound := 0
  register_index := 0
  pc := 0
  stack := []
  display := fun _ => 0
  keys := fun _ => false
  last_key_pressed := -1
  redraw_required := false

/-- The 80 font bytes of `set_font_sprites`. -/
def font_sprites : List Nat := [0xF0, 0x90, 0x90, 0x90, 0xF0,
   0x20, 0x60, 0x20, 0x20, 0x70,
   0xF0, 0x10, 0xF0, 0x80, 0xF0,
   0xF0, 0x10, 0xF0, 0x10, 0xF0,
   0x90, 0x90, 0xF0, 0x10, 0x10,
   0xF0, 0x80, 0xF0, 0x10, 0xF0,
   0xF0, 0x80, 0xF0, 0x90, 0xF0,
   0xF0, 0x10, 0x20, 0x40, 0x40,
   0xF0, 0x90, 0xF0, 0x90, 0xF0,
   0xF0, 0x90, 0xF0, 0x10, 0xF0,
   0xF0, 0x90, 0xF0, 0x90, 0x90,
   0xE0, 0x90, 0xE0, 0x90, 0xE0,
   0xF0, 0x80, 0x80, 0x80, 0xF0,
   0xE0, 0x90, 0x90, 0x90, 0xE0,
   0xF0, 0x80, 0xF0, 0x80, 0xF0,
   0xF0, 0x80, 0xF0, 0x80, 0x80]

/-- `set_font_sprites`: copy the 80 font bytes to the bottom of RAM. -/
def set_font_sprites (s : Cpu) : Cpu := {s with ram := writeBytes s.ram 0 font_sprites}

/-- `load_rom`, modelled on the byte sequence read from the file.  The size
check casts the file length to `uint16_t` before comparing it with
`mem_size - start_addr`; on failure the process exits (`none`), otherwise the
bytes are copied to RAM starting at `start_addr`. -/
def load_rom (s : Cpu) (rom : List Nat) : Option Cpu := if mem_size - start_addr < rom.length % 65536 then none
  else some {s with ram := writeBytes s.ram start_addr rom}

/-- `set_flag`: write 1 or 0 to register VF (index 15). -/
def set_flag (s : Cpu) (set : Bool) : Cpu := {s with register_vx := upd s.register_vx 15 (if set then 1 else 0)}

/-- Inner column loop of the `DXYN` draw instruction (`execute`, case 0x0D).
`fuel` bounds the recursion; the loop guard `col < 8` makes at most 8
iterations possible, so fuel 8 is exact. -/
def drawColLoop : Nat → Cpu → Nat → Nat → Nat → Nat → Nat → Cpu
  | 0, s, _, _, _, _, _ => s
  | fuel + 1, s, sprite_data, display_offset, x, row, col =>
    if col < 8 ∧ x + col < 64 then
      let sprite_p := sprite_data / 2 ^ (7 - col) % 2
      let idx := row * 64 + col + display_offset
      let s1 := if sprite_p ≠ 0 then
          if s.display idx ≠ 0 then
            {s with display := upd s.display idx 0,
                    register_vx := upd s.register_vx 15 1}
          else
            {s with display := upd s.display idx sprite_p}
        else s
      drawColLoop fuel s1 sprite_data display_offset x row (col + 1)
    else s

/-- Outer row loop of the `DXYN` draw instruction.  The guard `row < imm_n`
with `imm_n ≤ 15` makes fuel 16 exact. -/
def drawRowLoop : Nat → Cpu → Nat → Nat → Nat → Nat → Nat → Cpu
  | 0, s, _, _, _, _, _ => s
  | fuel + 1, s, imm_n, x, y, display_offset, row =>
    if row < imm_n ∧ row + y < 32 then
      drawRowLoop fuel
        (drawColLoop 8 s (s.ram (s.register_index + row)) display_offset x row 0)
        imm_n x y display_offset (row + 1)
    else s

/-- The `FX55` register-store loop: `for (i = 0; i <= reg_x; ++i)` writes
`ram[register_index + i] = register_vx[i]`.  Fuel 16 is exact for `reg_x ≤ 15`. -/
def storeLoop : Nat → Cpu → Nat → Nat → Cpu
  | 0, s, _, _ => s
  | fuel + 1, s, i, reg_x =>
    if i ≤ reg_x then
      storeLoop fuel
        {s with ram := upd s.ram (s.register_index + i) (s.register_vx i)}
        (i + 1) reg_x
    else s

/-- The `FX65` register-load loop: `register_vx[i] = ram[register_index + i]`. -/
def loadLoop : Nat → Cpu → Nat → Nat → Cpu
  | 0, s, _, _ => s
  | fuel + 1, s, i, reg_x =>
    if i ≤ reg_x then
      loadLoop fuel
        {s with register_vx := upd s.register_vx i (s.ram (s.register_index + i))}
        (i + 1) reg_x
    else s

/-- Body of the instruction executor `execute`, taking the six decoded fields
(`ms_nibble`, `reg_x`, `reg_y`, `imm_n`, `imm_nn`, `imm_nnn` — each derived
once per instruction in the source) as parameters. -/
def executeDecoded (s : Cpu) (rnd ms_nibble reg_x reg_y imm_n imm_nn imm_nnn : Nat) : Cpu :=
  if ms_nibble = 0x00 then
    let s1 := if imm_nn = 0xE0 then
        {s with display := fun _ => 0, redraw_required := true}
      else s
    if imm_nn = 0xEE then
      match s1.stack with
      | t :: rest => {s1 with pc := t, stack := rest}
      | [] => s1
    else s1
  else if ms_nibble = 0x01 then
    {s with pc := imm_nnn}
  else if ms_nibble = 0x02 then
    {s with stack := s.pc :: s.stack, pc := imm_nnn}
  else if ms_nibble = 0x03 then
    if s.register_vx reg_x = imm_nn then {s with pc := (s.pc + 2) % 65536} else s
  else if ms_nibble = 0x04 then
    if s.register_vx reg_x ≠ imm_nn then {s with pc := (s.pc + 2) % 65536} else s
  else if ms_nibble = 0x05 then
    if s.register_vx reg_x = s.register_vx reg_y then
      {s with pc := (s.pc + 2) % 65536}
    else s
  else if ms_nibble = 0x06 then
    {s with register_vx := upd s.register_vx reg_x imm_nn}
  else if ms_nibble = 0x07 then
    {s with register_vx := upd s.register_vx reg_x ((s.register_vx reg_x + imm_nn) % 256)}
  else if ms_nibble = 0x08 then
    if imm_n = 0x00 then
      {s with register_vx := upd s.register_vx reg_x (s.register_vx reg_y)}
    else if imm_n = 0x01 then
      {s with register_vx := upd s.register_vx reg_x (Nat.lor (s.register_vx reg_x) (s.register_vx reg_y))}
    else if imm_n = 0x02 then
      {s with register_vx := upd s.register_vx reg_x (Nat.land (s.register_vx reg_x) (s.register_vx reg_y))}
    else if imm_n = 0x03 then
      {s with register_vx := upd s.register_vx reg_x (Nat.xor (s.register_vx reg_x) (s.register_vx reg_y))}
    else if imm_n = 0x04 then
      let x_val := s.register_vx reg_x
      let y_val := s.register_vx reg_y
      let s1 := set_flag s (decide (255 < x_val + y_val))
      {s1 with register_vx := upd s1.register_vx reg_x ((s1.register_vx reg_x + y_val) % 256)}
    else if imm_n = 0x05 then
      let x_val := s.register_vx reg_x
      let y_val := s.register_vx reg_y
      let s1 := set_flag s (decide (x_val < y_val))
      {s1 with register_vx := upd s1.register_vx reg_x ((s1.register_vx reg_x + 256 - y_val) % 256)}
    else if imm_n = 0x06 then
      let y_val := s.register_vx reg_y
      let s1 := set_flag s (decide (y_val % 2 = 1))
      {s1 with register_vx := upd s1.register_vx reg_x (y_val / 2 % 256)}
    else if imm_n = 0x07 then
      let x_val := s.register_vx reg_x
      let y_val := s.register_vx reg_y
      let s1 := set_flag s (decide (y_val < x_val))
      {s1 with register_vx := upd s1.register_vx reg_x ((y_val + 256 - x_val) % 256)}
    else if imm_n = 0x0E then
      let y_val := s.register_vx reg_y
      let s1 := set_flag s (decide (y_val % 2 = 1))
      {s1 with register_vx := upd s1.register_vx reg_x (y_val * 2 % 256)}
    else s
  else if ms_nibble = 0x09 then
    if s.register_vx reg_x ≠ s.register_vx reg_y then
      {s with pc := (s.pc + 2) % 65536}
    else s
  else if ms_nibble = 0x0A then
    {s with register_index := imm_nnn}
  else if ms_nibble = 0x0B then
    {s with pc := (imm_nnn + s.register_vx 0) % 65536}
  else if ms_nibble = 0x0C then
    {s with register_vx := upd s.register_vx reg_x (Nat.land (rnd % 256) imm_nn)}
  else if ms_nibble = 0x0D then
    let x := s.register_vx reg_x % display_w
    let y := s.register_vx reg_y % display_h
    let display_offset := x + y * display_w
    let s1 := {s with register_vx := upd s.register_vx 15 0}
    let s2 := drawRowLoop 16 s1 imm_n x y display_offset 0
    {s2 with redraw_required := true}
  else if ms_nibble = 0x0E then
    if imm_nn = 0x9E then
      let x_val := s.register_vx reg_x
      if x_val < 16 then
        if s.keys x_val then {s with pc := (s.pc + 2) % 65536} else s
      else s
    else if imm_nn = 0xA1 then
      let x_val := s.register_vx reg_x
      if x_val < 16 then
        if s.keys x_val then s else {s with pc := (s.pc + 2) % 65536}
      else s
    else s
  else if ms_nibble = 0x0F then
    if imm_nn = 0x07 then
      {s with register_vx := upd s.register_vx reg_x s.register_delay}
    else if imm_nn = 0x0A then
      if s.last_key_pressed < 0 then
        {s with pc := (s.pc + 65534) % 65536}
      else
        {s with register_vx := upd s.register_vx reg_x (s.last_key_pressed.toNat % 256)}
    else if imm_nn = 0x15 then
      {s with register_delay := s.register_vx reg_x}
    else if imm_nn = 0x18 then
      {s with register_sound := s.register_vx reg_x}
    else if imm_nn = 0x1E then
      {s with register_index := (s.register_index + s.register_vx reg_x) % 65536}
    else if imm_nn = 0x29 then
      {s with register_index := (s.register_vx reg_x * font_sprite_size) % 65536}
    else if imm_nn = 0x33 then
      let x_val := s.register_vx reg_x
      let c := x_val / 100
      let d := x_val % 100 / 10
      let u := x_val % 100 % 10
      let ram1 := upd (upd (upd s.ram s.register_index c) (s.register_index + 1) d) (s.register_index + 2) u
      {s with ram := ram1}
    else if imm_nn = 0x55 then
      let s1 := storeLoop 16 s 0 reg_x
      {s1 with register_index := (s1.register_index + reg_x + 1) % 65536}
    else if imm_nn = 0x65 then
      let s1 := loadLoop 16 s 0 reg_x
      {s1 with register_index := (s1.register_index + reg_x + 1) % 65536}
    else s
  else s

/-- The instruction executor `execute`: decode the six instruction fields and
dispatch.  `rnd` is the value returned by `std::rand()` for the `CXNN`
instruction. -/
def execute (s : Cpu) (instruction rnd : Nat) : Cpu :=
  executeDecoded s rnd (instruction / 4096 % 16) (instruction / 256 % 16) (instruction / 16 % 16) (instruction % 16) (instruction % 256) (instruction % 4096)

/-- The `00EE` empty-stack path writes a warning to `stderr`; this predicate
records exactly when that line runs. -/
def emitsEmptyStackWarning (s : Cpu) (instruction : Nat) : Bool := decide (instruction / 4096 % 16 = 0 ∧ instruction % 256 = 0xEE ∧ s.stack = [])

/-- Instruction fetch in `main`: `(ram[pc] << 8) | ram[pc + 1]`. -/
def fetchInstr (s : Cpu) : Nat := Nat.lor (s.ram s.pc * 256) (s.ram (s.pc + 1))

/-- Addresses read by the fetch. -/
def fetchAddrs (s : Cpu) : List Nat := [s.pc, s.pc + 1]

/-- RAM addresses read by the draw row loop (`ram[register_index + row]`),
with the loop guards of the source. -/
def drawRowReads (s : Cpu) : Nat → Nat → Nat → Nat → List Nat
  | 0, _, _, _ => []
  | fuel + 1, imm_n, y, row =>
    if row < imm_n ∧ row + y < 32 then
      (s.register_index + row) :: drawRowReads s fuel imm_n y (row + 1)
    else []

/-- RAM addresses touched by the `FX55`/`FX65` loops
(`ram[register_index + i]` for `0 ≤ i ≤ reg_x`). -/
def regLoopAddrs : Nat → Nat → Nat → Nat → List Nat
  | 0, _, _, _ => []
  | fuel + 1, base, i, reg_x =>
    if i ≤ reg_x then (base + i) :: regLoopAddrs fuel base (i + 1) reg_x
    else []

/-- RAM addresses accessed by `execute` for one instruction, collected from
the array subscripts of the source: the draw sprite reads, the `FX33` BCD
writes and the `FX55`/`FX65` loop accesses.  All other instructions touch no
RAM. -/
def memAccesses (s : Cpu) (instruction : Nat) : List Nat := let ms_nibble := instruction / 4096 % 16
  let reg_x := instruction / 256 % 16
  let reg_y := instruction / 16 % 16
  let imm_n := instruction % 16
  let imm_nn := instruction % 256
  if ms_nibble = 0x0D then
    drawRowReads s 16 imm_n (s.register_vx reg_y % display_h) 0
  else if ms_nibble = 0x0F ∧ imm_nn = 0x33 then
    [s.register_index, s.register_index + 1, s.register_index + 2]
  else if ms_nibble = 0x0F ∧ (imm_nn = 0x55 ∨ imm_nn = 0x65) then
    regLoopAddrs 16 s.register_index 0 reg_x
  else []

/-- First key transitioning unpressed→pressed, mirroring the sampling loop in
`main` (first match wins via `break`). -/
def firstEdge (tmp_keys keys : Nat → Bool) : Nat → Nat → Option Nat
  | 0, _ => none
  | fuel + 1, i =>
    if tmp_keys i && !keys i then some i
    else firstEdge tmp_keys keys fuel (i + 1)

/-- Scheduler-loop state: the machine plus the loop locals `clk` and
`something_pressed` (the latter declared OUTSIDE the loop in `main`). -/
structure Mach where
  cpu : Cpu
  clk : Nat
  something_pressed : Bool

/-- Fetch, advance the program counter by 2, and execute — the first half of
one iteration of the loop in `main`. -/
def execPhase (m : Mach) (rnd : Nat) : Cpu := execute {m.cpu with pc := (m.cpu.pc + 2) % 65536} (fetchInstr m.cpu) rnd

/-- The sixty-hertz block in `main`: hand off the framebuffer if needed and
decrement each nonzero timer. -/
def tick60 (s : Cpu) : Cpu := let s1 := if s.redraw_required then {s with redraw_required := false} else s
  let s2 := if 0 < s1.register_delay then
      {s1 with register_delay := s1.register_delay - 1}
    else s1
  if 0 < s2.register_sound then
    {s2 with register_sound := s2.register_sound - 1}
  else s2

/-- Key sampling at the bottom of the loop in `main`: find the first
unpressed→pressed edge; `last_key_pressed` is reset to -1 only while
`something_pressed` has never yet been set. -/
def keyPhase (s : Cpu) (something_pressed : Bool) (tmp_keys : Nat → Bool) :
    Cpu × Bool := match firstEdge tmp_keys s.keys 16 0 with
  | some i => ({s with last_key_pressed := Int.ofNat i, keys := tmp_keys}, true)
  | none =>
    if something_pressed then ({s with keys := tmp_keys}, something_pressed)
    else ({s with last_key_pressed := -1, keys := tmp_keys}, something_pressed)

/-- One full iteration of the scheduler loop in `main`, given the keyboard
snapshot polled this tick and the `CXNN` random byte. -/
def step (m : Mach) (tmp_keys : Nat → Bool) (rnd : Nat) : Mach := let clk := m.clk + 1
  let s := execPhase m rnd
  let s := if clk % clocks60 = 0 then tick60 s else s
  let p := keyPhase s m.something_pressed tmp_keys
  ⟨p.1, clk, p.2⟩

/-- The machine as it stands when the scheduler loop is first entered:
zero-initialised state, font sprites written, ROM copied to `start_addr`,
program counter at `start_addr`. -/
def startup (rom : List Nat) : Mach where
  cpu := let c := set_font_sprites initCpu
    {c with ram := writeBytes c.ram start_addr rom, pc := start_addr}
  clk := 0
  something_pressed := false

/-- All-keys-released keyboard snapshot. -/
def noKeys : Nat → Bool := fun _ => false

/-- Keyboard snapshot with only key 3 held down. -/
def press3 : Nat → Bool := fun i => decide (i = 3)

/-- State with V0 = 5 and V1 = 3, the inputs of the `sub`/`subn` evaluation. -/
def subState : Cpu :=
  {initCpu with register_vx := fun i => if i = 0 then 5 else if i = 1 then 3 else 0}

/-- C1: with V0 = 5 ≥ V1 = 3 there is no borrow, so the claim requires
`sub V0,V1` (0x8015) to set VF := 1 and `subn V0,V1` (0x8017) to set VF := 0.
The code computes the opposite flag in both cases — `set_flag(cpu, x_val < y_val)`
for `sub` and `set_flag(cpu, y_val < x_val)` for `subn` — while the difference
values (2 and 254) agree with the claim. -/
theorem c1_flag_inverted :
    (execute subState 0x8015 0).register_vx 15 = 0 ∧
    (execute subState 0x8015 0).register_vx 0 = 2 ∧
    (execute subState 0x8017 0).register_vx 15 = 1 ∧
    (execute subState 0x8017 0).register_vx 0 = 254 := by
  decide

/-- Program `A000; F033`: point the index register at address 0 and store the
BCD digits of V0 there. -/
def fontClobberRom : List Nat := [0xA0, 0x00, 0xF0, 0x33]

/-- The machine one scheduler tick after startup on `fontClobberRom`: a
reachable state whose index register is 0. -/
def fontClobberM1 : Mach := step (startup fontClobberRom) noKeys 0

/-- C2 counterexample: in the reachable state `fontClobberM1` the font byte at
address 0 is still 0xF0, the fetched instruction is 0xF033, and executing that
one instruction (the next scheduler tick) overwrites address 0 with 0 — so an
instruction after startup does mutate the font-sprite region below 0x200. -/
theorem c2_counterexample :
    fontClobberM1.cpu.ram 0 = 0xF0 ∧
    fetchInstr fontClobberM1.cpu = 0xF033 ∧
    (step fontClobberM1 noKeys 0).cpu.ram 0 = 0 ∧ (0 : Nat) ≠ 0xF0 := by
  decide

/-- State with V15 = 5 and V0 = 3, the inputs of the `add` evaluation with
X = 15. -/
def addVFState : Cpu :=
  {initCpu with register_vx := fun i => if i = 15 then 5 else if i = 0 then 3 else 0}

/-- C3 counterexample: for `add V15,V0` (0x8F04) with a = V15 = 5, b = V0 = 3
the claim requires VX = V15 := (5 + 3) % 256 = 8, but the code writes the
carry flag into V15 first and then adds b to the flagged register, producing
V15 = 3. -/
theorem c3_counterexample :
    (execute addVFState 0x8F04 0).register_vx 15 = 3 ∧
    (5 + 3) % 256 = 8 ∧ (3 : Nat) ≠ 8 := by
  decide

/-- C4: the loader's size check truncates the byte count to 16 bits
(`static_cast<uint16_t>(rom_size)`), so a 65636-byte sequence is accepted
(65636 % 65536 = 100 ≤ 3584) even though it exceeds 3584 bytes — the claim
requires it to fail.  A 3585-byte sequence is rejected as required, and an
accepted sequence is copied verbatim to 0x200 with the rest of RAM untouched. -/
theorem c4_size_check_truncates :
    load_rom initCpu (List.replicate 65636 7) ≠ none ∧
    3584 < (List.replicate 65636 7).length ∧
    load_rom initCpu (List.replicate 3585 7) = none ∧
    ((load_rom initCpu [7, 8]).map fun c => (c.ram 512, c.ram 513, c.ram 514)) =
      some (7, 8, 0) := by
  refine ⟨?_, ?_, ?_, ?_⟩
  · simp only [load_rom, List.length_replicate, mem_size, start_addr]
    norm_num
    exact fun h => Option.noConfusion h
  · rw [List.length_replicate]
    norm_num
  · simp only [load_rom, List.length_replicate, mem_size, start_addr]
    norm_num
  · decide

/-- Program `F00A; F10A`: two consecutive wait-for-key instructions. -/
def waitKeyRom : List Nat := [0xF0, 0x0A, 0xF1, 0x0A]

/-- Tick 1 on `waitKeyRom`: key 3 is pressed, `F00A` blocks (it ran before the
sample), and the sample records the edge. -/
def waitKeyM1 : Mach := step (startup waitKeyRom) press3 0

/-- Tick 2: all keys released; the first `F00A` consumes key 3. -/
def waitKeyM2 : Mach := step waitKeyM1 noKeys 0

/-- Tick 3: still no key transition, yet the second wait instruction runs. -/
def waitKeyM3 : Mach := step waitKeyM2 noKeys 0

/-- C8: after the edge on tick 1 is consumed, no further key transition occurs
(`firstEdge` of the tick-2 sample is `none`), yet `last_key_pressed` is still 3
in `waitKeyM2` because `something_pressed` latched true, so the second `FX0A`
(0xF10A) on tick 3 writes V1 := 3 and lets the program counter advance to
0x204 instead of decrementing it by 2 and leaving V1 unwritten. -/
theorem c8_stale_key :
    waitKeyM1.cpu.pc = 0x200 ∧
    waitKeyM1.cpu.last_key_pressed = 3 ∧
    firstEdge noKeys waitKeyM1.cpu.keys 16 0 = none ∧
    waitKeyM2.cpu.last_key_pressed = 3 ∧
    fetchInstr waitKeyM2.cpu = 0xF10A ∧
    waitKeyM3.cpu.register_vx 1 = 3 ∧
    waitKeyM3.cpu.pc = 0x204 := by
  decide

/-- Program `AFFF; 60FF; F01E; F033`: drive the index register to
4095 + 255 = 4350 and then store BCD digits there. -/
def oobRom : List Nat := [0xAF, 0xFF, 0x60, 0xFF, 0xF0, 0x1E, 0xF0, 0x33]

/-- The machine three scheduler ticks after startup on `oobRom`. -/
def oobM3 : Mach := step (step (step (startup oobRom) noKeys 0) noKeys 0) noKeys 0

/-- C10 counterexample: in the reachable state `oobM3` the index register is
4350 > 4095, the fetched instruction is 0xF033, and its RAM accesses are
addresses 4350, 4351, 4352 — all outside the 4096-byte memory array, so the
memory accesses of a reachable state do not all fall within bounds. -/
theorem c10_counterexample :
    oobM3.cpu.register_index = 4350 ∧
    fetchInstr oobM3.cpu = 0xF033 ∧
    memAccesses oobM3.cpu 0xF033 = [4350, 4351, 4352] ∧
    mem_size ≤ 4350 := by
  decide

lemma storeLoop_register_vx : ∀ fuel s i reg_x, (storeLoop fuel s i reg_x).register_vx = s.register_vx := by
  intro fuel
  induction fuel with
  | zero => intro s i reg_x; rfl
  | succ f ih =>
    intro s i reg_x
    unfold storeLoop
    split
    · rw [ih]
    · rfl

lemma storeLoop_register_index : ∀ fuel s i reg_x, (storeLoop fuel s i reg_x).register_index = s.register_index := by
  intro fuel
  induction fuel with
  | zero => intro s i reg_x; rfl
  | succ f ih =>
    intro s i reg_x
    unfold storeLoop
    split
    · rw [ih]
    · rfl

lemma storeLoop_ram_out : ∀ fuel s i reg_x a, (∀ k, i ≤ k → k ≤ reg_x → a ≠ s.register_index + k) → (storeLoop fuel s i reg_x).ram a = s.ram a := by
  intro fuel
  induction fuel with
  | zero => intro s i reg_x a _; rfl
  | succ f ih =>
    intro s i reg_x a h
    unfold storeLoop
    split
    case isTrue hle =>
      have hrec := ih {s with ram := upd s.ram (s.register_index + i) (s.register_vx i)} (i + 1) reg_x a (fun k hk hkX => h k (by omega) hkX)
      rw [hrec]
      show upd s.ram (s.register_index + i) (s.register_vx i) a = s.ram a
      rw [upd, if_neg (h i le_rfl hle)]
    case isFalse _ => rfl

lemma storeLoop_ram_at : ∀ fuel i j s reg_x, i ≤ j → j ≤ reg_x → j < i + fuel → (storeLoop fuel s i reg_x).ram (s.register_index + j) = s.register_vx j := by
  intro fuel
  induction fuel with
  | zero => intro i j s reg_x hij _ hlt; exact absurd hlt (by omega)
  | succ f ih =>
    intro i j s reg_x hij hjX hlt
    unfold storeLoop
    rw [if_pos (le_trans hij hjX)]
    by_cases heq : j = i
    · subst heq
      have hout := storeLoop_ram_out f {s with ram := upd s.ram (s.register_index + j) (s.register_vx j)} (j + 1) reg_x (s.register_index + j) (fun k hk _ => show s.register_index + j ≠ s.register_index + k by omega)
      rw [hout]
      show upd s.ram (s.register_index + j) (s.register_vx j) (s.register_index + j) = s.register_vx j
      rw [upd, if_pos rfl]
    · exact ih (i + 1) j {s with ram := upd s.ram (s.register_index + i) (s.register_vx i)} reg_x (by omega) hjX (by omega)

lemma loadLoop_ram : ∀ fuel s i reg_x, (loadLoop fuel s i reg_x).ram = s.ram := by
  intro fuel
  induction fuel with
  | zero => intro s i reg_x; rfl
  | succ f ih =>
    intro s i reg_x
    unfold loadLoop
    split
    · rw [ih]
    · rfl

lemma loadLoop_register_index : ∀ fuel s i reg_x, (loadLoop fuel s i reg_x).register_index = s.register_index := by
  intro fuel
  induction fuel with
  | zero => intro s i reg_x; rfl
  | succ f ih =>
    intro s i reg_x
    unfold loadLoop
    split
    · rw [ih]
    · rfl

lemma loadLoop_vx_out : ∀ fuel s i reg_x j, (j < i ∨ reg_x < j) → (loadLoop fuel s i reg_x).register_vx j = s.register_vx j := by
  intro fuel
  induction fuel with
  | zero => intro s i reg_x j _; rfl
  | succ f ih =>
    intro s i reg_x j hj
    unfold loadLoop
    split
    case isTrue hle =>
      have hrec := ih {s with register_vx := upd s.register_vx i (s.ram (s.register_index + i))} (i + 1) reg_x j (by omega)
      rw [hrec]
      show upd s.register_vx i (s.ram (s.register_index + i)) j = s.register_vx j
      rw [upd, if_neg (by omega)]
    case isFalse _ => rfl

lemma loadLoop_vx_at : ∀ fuel i j s reg_x, i ≤ j → j ≤ reg_x → j < i + fuel → (loadLoop fuel s i reg_x).register_vx j = s.ram (s.register_index + j) := by
  intro fuel
  induction fuel with
  | zero => intro i j s reg_x hij _ hlt; exact absurd hlt (by omega)
  | succ f ih =>
    intro i j s reg_x hij hjX hlt
    unfold loadLoop
    rw [if_pos (le_trans hij hjX)]
    by_cases heq : j = i
    · subst heq
      have hout := loadLoop_vx_out f {s with register_vx := upd s.register_vx j (s.ram (s.register_index + j))} (j + 1) reg_x j (Or.inl (by omega))
      rw [hout]
      show upd s.register_vx j (s.ram (s.register_index + j)) j = s.ram (s.register_index + j)
      rw [upd, if_pos rfl]
    · exact ih (i + 1) j {s with register_vx := upd s.register_vx i (s.ram (s.register_index + i))} reg_x (by omega) hjX (by omega)

lemma execute_F55 (s : Cpu) (reg_x rnd : Nat) (hX : reg_x < 16) : execute s (0xF055 + 256 * reg_x) rnd = {storeLoop 16 s 0 reg_x with register_index := ((storeLoop 16 s 0 reg_x).register_index + reg_x + 1) % 65536} := by
  have hms : (0xF055 + 256 * reg_x) / 4096 % 16 = 15 := by omega
  have hx : (0xF055 + 256 * reg_x) / 256 % 16 = reg_x := by omega
  have hnn : (0xF055 + 256 * reg_x) % 256 = 0x55 := by omega
  unfold execute executeDecoded
  simp only [hms, hx, hnn]
  norm_num

lemma execute_F65 (s : Cpu) (reg_x rnd : Nat) (hX : reg_x < 16) : execute s (0xF065 + 256 * reg_x) rnd = {loadLoop 16 s 0 reg_x with register_index := ((loadLoop 16 s 0 reg_x).register_index + reg_x + 1) % 65536} := by
  have hms : (0xF065 + 256 * reg_x) / 4096 % 16 = 15 := by omega
  have hx : (0xF065 + 256 * reg_x) / 256 % 16 = reg_x := by omega
  have hnn : (0xF065 + 256 * reg_x) % 256 = 0x65 := by omega
  unfold execute executeDecoded
  simp only [hms, hx, hnn]
  norm_num

/-- C6: `FX55` (store V0..VX at index..index+X, then index += X+1) followed by
`FX65` with the same X and the index register restored to its pre-store value
reads back exactly the bytes just written, restoring every register V0..VX.
The hypothesis `register_index + X ≤ 4095` keeps all accessed addresses inside
the 4096-byte RAM, as the claim requires. -/
theorem c6_store_load_roundtrip (s : Cpu) (reg_x rnd1 rnd2 j : Nat) (hX : reg_x < 16) (hj : j ≤ reg_x) (_hrange : s.register_index + reg_x ≤ 4095) :
    (execute {execute s (0xF055 + 256 * reg_x) rnd1 with register_index := s.register_index} (0xF065 + 256 * reg_x) rnd2).register_vx j = s.register_vx j := by
  have h55 := execute_F55 s reg_x rnd1 hX
  have hmid : {execute s (0xF055 + 256 * reg_x) rnd1 with register_index := s.register_index} = {storeLoop 16 s 0 reg_x with register_index := s.register_index} := by rw [h55]
  rw [hmid, execute_F65 _ reg_x rnd2 hX]
  show (loadLoop 16 {storeLoop 16 s 0 reg_x with register_index := s.register_index} 0 reg_x).register_vx j = s.register_vx j
  rw [loadLoop_vx_at 16 0 j _ reg_x (Nat.zero_le j) hj (by omega)]
  show (storeLoop 16 s 0 reg_x).ram (s.register_index + j) = s.register_vx j
  exact storeLoop_ram_at 16 0 j s reg_x (Nat.zero_le j) hj (by omega)

/-- State with V0..V15 = 10..25 and index register 0x300, for the round-trip
witness. -/
def c6State : Cpu :=
  {initCpu with register_vx := fun i => if i < 16 then 10 + i else 0, register_index := 0x300}

/-- Witness for C6 at X = 2, j = 1, index 0x300. -/
theorem c6_store_load_roundtrip_witness :
    (execute {execute c6State (0xF055 + 256 * 2) 0 with register_index := c6State.register_index} (0xF065 + 256 * 2) 0).register_vx 1 = c6State.register_vx 1 :=
  c6_store_load_roundtrip c6State 2 0 0 1 (by norm_num) (by norm_num) (by decide)

/-- C7: executing `00EE` with an empty call stack leaves the program counter
and stack unchanged (execution continues; the branch only writes a warning,
recorded by `emitsEmptyStackWarning`); with a non-empty stack it pops the top
into the program counter and emits no warning. -/
theorem c7_return (s : Cpu) (rnd : Nat) :
    (s.stack = [] → (execute s 0x00EE rnd).pc = s.pc ∧ (execute s 0x00EE rnd).stack = [] ∧ emitsEmptyStackWarning s 0x00EE = true) ∧
    (∀ t rest, s.stack = t :: rest → (execute s 0x00EE rnd).pc = t ∧ (execute s 0x00EE rnd).stack = rest ∧ emitsEmptyStackWarning s 0x00EE = false) := by
  constructor
  · intro h
    unfold execute executeDecoded emitsEmptyStackWarning
    norm_num [h]
  · intro t rest h
    unfold execute executeDecoded emitsEmptyStackWarning
    norm_num [h]
    exact fun hc => List.noConfusion hc

/-- State with one return address 0x250 on the stack. -/
def c7State : Cpu := {initCpu with stack := [0x250], pc := 0x400}

/-- Witness for C7: popping the single return address 0x250. -/
theorem c7_return_witness : (execute c7State 0x00EE 0).pc = 0x250 ∧ (execute c7State 0x00EE 0).stack = [] := by
  have h := (c7_return c7State 0).2 0x250 [] (by decide)
  exact ⟨h.1, h.2.1⟩

lemma keyPhase_fst_register_delay (s : Cpu) (sp : Bool) (tmp : Nat → Bool) : (keyPhase s sp tmp).1.register_delay = s.register_delay := by
  unfold keyPhase
  split
  · rfl
  · split <;> rfl

lemma keyPhase_fst_register_sound (s : Cpu) (sp : Bool) (tmp : Nat → Bool) : (keyPhase s sp tmp).1.register_sound = s.register_sound := by
  unfold keyPhase
  split
  · rfl
  · split <;> rfl

lemma tick60_register_delay (s : Cpu) : (tick60 s).register_delay = if 0 < s.register_delay then s.register_delay - 1 else s.register_delay := by
  simp only [tick60, apply_ite Cpu.register_delay, ite_self]

lemma tick60_register_sound (s : Cpu) : (tick60 s).register_sound = if 0 < s.register_sound then s.register_sound - 1 else s.register_sound := by
  simp only [tick60, apply_ite Cpu.register_sound, ite_self]

lemma step_cpu (m : Mach) (tmp : Nat → Bool) (rnd : Nat) : (step m tmp rnd).cpu = (keyPhase (if (m.clk + 1) % clocks60 = 0 then tick60 (execPhase m rnd) else execPhase m rnd) m.something_pressed tmp).1 := rfl

/-- C9: over one scheduler iteration the delay and sound timers are decremented
by exactly 1 precisely when the incremented tick counter is a multiple of
`clocks60` = `clock_freq / 60` = 11 and the timer (after the instruction's own
effect `execPhase`) is nonzero; on every other tick, and whenever the timer is
already 0, the scheduler leaves it unchanged — so a timer at 0 stays at 0 and
never wraps below zero. -/
theorem c9_timers (m : Mach) (tmp_keys : Nat → Bool) (rnd : Nat) :
    ((step m tmp_keys rnd).cpu.register_delay =
      if (m.clk + 1) % clocks60 = 0 ∧ 0 < (execPhase m rnd).register_delay then (execPhase m rnd).register_delay - 1 else (execPhase m rnd).register_delay) ∧
    ((step m tmp_keys rnd).cpu.register_sound =
      if (m.clk + 1) % clocks60 = 0 ∧ 0 < (execPhase m rnd).register_sound then (execPhase m rnd).register_sound - 1 else (execPhase m rnd).register_sound) ∧
    (step m tmp_keys rnd).clk = m.clk + 1 := by
  refine ⟨?_, ?_, rfl⟩
  · rw [step_cpu, keyPhase_fst_register_delay]
    by_cases hdiv : (m.clk + 1) % clocks60 = 0
    · rw [if_pos hdiv, tick60_register_delay]
      by_cases hd : 0 < (execPhase m rnd).register_delay
      · rw [if_pos hd, if_pos ⟨hdiv, hd⟩]
      · rw [if_neg hd, if_neg (fun h => hd h.2)]
    · rw [if_neg hdiv, if_neg (fun h => hdiv h.1)]
  · rw [step_cpu, keyPhase_fst_register_sound]
    by_cases hdiv : (m.clk + 1) % clocks60 = 0
    · rw [if_pos hdiv, tick60_register_sound]
      by_cases hd : 0 < (execPhase m rnd).register_sound
      · rw [if_pos hd, if_pos ⟨hdiv, hd⟩]
      · rw [if_neg hd, if_neg (fun h => hd h.2)]
    · rw [if_neg hdiv, if_neg (fun h => hdiv h.1)]

lemma drawColLoop_ram : ∀ fuel s sprite off x row col, (drawColLoop fuel s sprite off x row col).ram = s.ram := by
  intro fuel
  induction fuel with
  | zero => intro s sprite off x row col; rfl
  | succ f ih =>
    intro s sprite off x row col
    unfold drawColLoop
    dsimp only
    split
    · rw [ih]
      split
      · split <;> rfl
      · rfl
    · rfl

lemma drawColLoop_register_index : ∀ fuel s sprite off x row col, (drawColLoop fuel s sprite off x row col).register_index = s.register_index := by
  intro fuel
  induction fuel with
  | zero => intro s sprite off x row col; rfl
  | succ f ih =>
    intro s sprite off x row col
    unfold drawColLoop
    dsimp only
    split
    · rw [ih]
      split
      · split <;> rfl
      · rfl
    · rfl

lemma drawRowLoop_ram : ∀ fuel s imm_n x y off row, (drawRowLoop fuel s imm_n x y off row).ram = s.ram := by
  intro fuel
  induction fuel with
  | zero => intro s imm_n x y off row; rfl
  | succ f ih =>
    intro s imm_n x y off row
    unfold drawRowLoop
    split
    · rw [ih, drawColLoop_ram]
    · rfl

lemma drawColLoop_display_out (q : Nat) : ∀ fuel col s sprite off x row, (∀ c2, col ≤ c2 → c2 < 8 → x + c2 < 64 → row * 64 + c2 + off ≠ q) → (drawColLoop fuel s sprite off x row col).display q = s.display q := by
  intro fuel
  induction fuel with
  | zero => intro col s sprite off x row _; rfl
  | succ f ih =>
    intro col s sprite off x row h
    unfold drawColLoop
    dsimp only
    split
    case isTrue hg =>
      refine (ih (col + 1) _ sprite off x row (fun c2 hc2 h8 h64 => h c2 (by omega) h8 h64)).trans ?_
      have hne : q ≠ row * 64 + col + off := fun hq => h col le_rfl hg.1 hg.2 hq.symm
      split
      · split
        · show upd s.display (row * 64 + col + off) 0 q = s.display q
          rw [upd, if_neg hne]
        · show upd s.display (row * 64 + col + off) _ q = s.display q
          rw [upd, if_neg hne]
      · rfl
    case isFalse _ => rfl

lemma drawRowLoop_display_out (q : Nat) : ∀ fuel row s imm_n x y off, (∀ r2 c2, row ≤ r2 → r2 < imm_n → r2 + y < 32 → c2 < 8 → x + c2 < 64 → r2 * 64 + c2 + off ≠ q) → (drawRowLoop fuel s imm_n x y off row).display q = s.display q := by
  intro fuel
  induction fuel with
  | zero => intro row s imm_n x y off _; rfl
  | succ f ih =>
    intro row s imm_n x y off h
    unfold drawRowLoop
    split
    case isTrue hg =>
      refine (ih (row + 1) _ imm_n x y off (fun r2 c2 hr2 hrn hry h8 h64 => h r2 c2 (by omega) hrn hry h8 h64)).trans ?_
      exact drawColLoop_display_out q 8 0 s _ off x row (fun c2 _ h8 h64 => h row c2 le_rfl hg.1 hg.2 h8 h64)
    case isFalse _ => rfl

lemma execute_DXYN (s : Cpu) (X Y N rnd : Nat) (hX : X < 16) (hY : Y < 16) (hN : N < 16) :
    execute s (0xD000 + 256 * X + 16 * Y + N) rnd = {drawRowLoop 16 {s with register_vx := upd s.register_vx 15 0} N (s.register_vx X % display_w) (s.register_vx Y % display_h) (s.register_vx X % display_w + s.register_vx Y % display_h * display_w) 0 with redraw_required := true} := by
  have hms : (0xD000 + 256 * X + 16 * Y + N) / 4096 % 16 = 13 := by omega
  have hx : (0xD000 + 256 * X + 16 * Y + N) / 256 % 16 = X := by omega
  have hy : (0xD000 + 256 * X + 16 * Y + N) / 16 % 16 = Y := by omega
  have hn : (0xD000 + 256 * X + 16 * Y + N) % 16 = N := by omega
  unfold execute executeDecoded
  simp only [hms, hx, hy, hn]
  norm_num

/-- C5: the draw instruction `DXYN` starts at coordinate
(VX mod 64, VY mod 32) and clips rather than wraps: every framebuffer pixel
whose column lies left of the origin or at least 8 columns past it, or whose
row lies above the origin or at least N rows below it, is left untouched.
In particular a sprite with origin (60, 0) leaves columns 0–3 unchanged. -/
theorem c5_draw_clips (s : Cpu) (X Y N rnd r c : Nat) (hX : X < 16) (hY : Y < 16) (hN : N < 16) (_hr : r < 32) (hc : c < 64)
    (hout : c < s.register_vx X % 64 ∨ s.register_vx X % 64 + 8 ≤ c ∨ r < s.register_vx Y % 32 ∨ s.register_vx Y % 32 + N ≤ r) :
    (execute s (0xD000 + 256 * X + 16 * Y + N) rnd).display (r * 64 + c) = s.display (r * 64 + c) := by
  rw [execute_DXYN s X Y N rnd hX hY hN]
  show (drawRowLoop 16 {s with register_vx := upd s.register_vx 15 0} N (s.register_vx X % display_w) (s.register_vx Y % display_h) (s.register_vx X % display_w + s.register_vx Y % display_h * display_w) 0).display (r * 64 + c) = s.display (r * 64 + c)
  have hx64 : s.register_vx X % 64 < 64 := Nat.mod_lt _ (by norm_num)
  have hy32 : s.register_vx Y % 32 < 32 := Nat.mod_lt _ (by norm_num)
  rw [drawRowLoop_display_out (r * 64 + c) 16 0 _ N _ _ _ ?_]
  · intro r2 c2 _ hrn hry h8 h64
    simp only [display_w, display_h] at *
    omega

/-- State with V0 = 60 and V1 = 0, the draw origin of the clipping witness. -/
def c5State : Cpu := {initCpu with register_vx := fun i => if i = 0 then 60 else 0}

/-- Witness for C5: a 2-row sprite drawn at origin (60, 0) leaves pixel
(row 0, column 3) untouched. -/
theorem c5_draw_clips_witness : (execute c5State (0xD000 + 256 * 0 + 16 * 1 + 2) 0).display (0 * 64 + 3) = c5State.display (0 * 64 + 3) :=
  c5_draw_clips c5State 0 1 2 0 0 3 (by norm_num) (by norm_num) (by norm_num) (by norm_num) (by norm_num) (Or.inl (by decide))

set_option maxHeartbeats 3200000 in
/-- C2 (amended): executing one instruction leaves every memory address below
0x200 (the font-sprite region) unchanged, except that `FX33` and `FX55` write
relative to the index register and are only excluded when the index register
is at least 0x200 — which the hypothesis assumes for exactly those two
instructions.  No other instruction writes RAM at all. -/
theorem c2_font_preserved (s : Cpu) (instruction rnd a : Nat) (ha : a < 0x200)
    (hidx : instruction / 4096 % 16 = 15 → (instruction % 256 = 0x33 ∨ instruction % 256 = 0x55) → 0x200 ≤ s.register_index) :
    (execute s instruction rnd).ram a = s.ram a := by
  unfold execute
  revert hidx
  generalize instruction / 4096 % 16 = ms
  generalize instruction % 256 = nn
  generalize instruction / 256 % 16 = rx
  generalize instruction / 16 % 16 = ry
  generalize instruction % 16 = n
  generalize instruction % 4096 = nnn
  intro hidx
  unfold executeDecoded
  by_cases h0 : ms = 0
  · rw [if_pos h0]
    dsimp only
    repeat' split
    all_goals try dsimp only
  rw [if_neg h0]
  by_cases h1 : ms = 1
  · rw [if_pos h1]
  rw [if_neg h1]
  by_cases h2 : ms = 2
  · rw [if_pos h2]
  rw [if_neg h2]
  by_cases h3 : ms = 3
  · rw [if_pos h3]
    split <;> rfl
  rw [if_neg h3]
  by_cases h4 : ms = 4
  · rw [if_pos h4]
    split <;> rfl
  rw [if_neg h4]
  by_cases h5 : ms = 5
  · rw [if_pos h5]
    split <;> rfl
  rw [if_neg h5]
  by_cases h6 : ms = 6
  · rw [if_pos h6]
  rw [if_neg h6]
  by_cases h7 : ms = 7
  · rw [if_pos h7]
  rw [if_neg h7]
  by_cases h8 : ms = 8
  · rw [if_pos h8]
    repeat' split
    all_goals rfl
  rw [if_neg h8]
  by_cases h9 : ms = 9
  · rw [if_pos h9]
    split <;> rfl
  rw [if_neg h9]
  by_cases hA : ms = 10
  · rw [if_pos hA]
  rw [if_neg hA]
  by_cases hB : ms = 11
  · rw [if_pos hB]
  rw [if_neg hB]
  by_cases hC : ms = 12
  · rw [if_pos hC]
  rw [if_neg hC]
  by_cases hD : ms = 13
  · rw [if_pos hD]
    dsimp only
    rw [drawRowLoop_ram]
  rw [if_neg hD]
  by_cases hE : ms = 14
  · rw [if_pos hE]
    dsimp only
    repeat' split
    all_goals rfl
  rw [if_neg hE]
  by_cases hF : ms = 15
  · rw [if_pos hF]
    by_cases h33 : nn = 0x33
    · have ne07 : ¬nn = 0x07 := by omega
      have ne0A : ¬nn = 0x0A := by omega
      have ne15 : ¬nn = 0x15 := by omega
      have ne18 : ¬nn = 0x18 := by omega
      have ne1E : ¬nn = 0x1E := by omega
      have ne29 : ¬nn = 0x29 := by omega
      rw [if_neg ne07, if_neg ne0A, if_neg ne15, if_neg ne18, if_neg ne1E, if_neg ne29, if_pos h33]
      have h512 : 0x200 ≤ s.register_index := hidx hF (Or.inl h33)
      have nea0 : ¬a = s.register_index := by omega
      have nea1 : ¬a = s.register_index + 1 := by omega
      have nea2 : ¬a = s.register_index + 2 := by omega
      dsimp only
      simp only [upd]
      rw [if_neg nea2, if_neg nea1, if_neg nea0]
    by_cases h55 : nn = 0x55
    · have mm07 : ¬nn = 0x07 := by omega
      have mm0A : ¬nn = 0x0A := by omega
      have mm15 : ¬nn = 0x15 := by omega
      have mm18 : ¬nn = 0x18 := by omega
      have mm1E : ¬nn = 0x1E := by omega
      have mm29 : ¬nn = 0x29 := by omega
      have mm33 : ¬nn = 0x33 := by omega
      rw [if_neg mm07, if_neg mm0A, if_neg mm15, if_neg mm18, if_neg mm1E, if_neg mm29, if_neg mm33, if_pos h55]
      have h512 : 0x200 ≤ s.register_index := hidx hF (Or.inr h55)
      dsimp only
      rw [storeLoop_ram_out 16 s 0 _ a (fun k hk hkX => by omega)]
    by_cases h65 : nn = 0x65
    · have kk07 : ¬nn = 0x07 := by omega
      have kk0A : ¬nn = 0x0A := by omega
      have kk15 : ¬nn = 0x15 := by omega
      have kk18 : ¬nn = 0x18 := by omega
      have kk1E : ¬nn = 0x1E := by omega
      have kk29 : ¬nn = 0x29 := by omega
      have kk33 : ¬nn = 0x33 := by omega
      have kk55 : ¬nn = 0x55 := by omega
      rw [if_neg kk07, if_neg kk0A, if_neg kk15, if_neg kk18, if_neg kk1E, if_neg kk29, if_neg kk33, if_neg kk55, if_pos h65]
      dsimp only
      rw [loadLoop_ram]
    by_cases h07 : nn = 0x07
    · rw [if_pos h07]
    rw [if_neg h07]
    by_cases h0A : nn = 0x0A
    · rw [if_pos h0A]
      split <;> rfl
    rw [if_neg h0A]
    by_cases h15i : nn = 0x15
    · rw [if_pos h15i]
    rw [if_neg h15i]
    by_cases h18 : nn = 0x18
    · rw [if_pos h18]
    rw [if_neg h18]
    by_cases h1E : nn = 0x1E
    · rw [if_pos h1E]
    rw [if_neg h1E]
    by_cases h29 : nn = 0x29
    · rw [if_pos h29]
    rw [if_neg h29]
    rw [if_neg h33, if_neg h55, if_neg h65]
  rw [if_neg hF]

/-- State with the index register at 0x300, for the font-preservation witness. -/
def c2State : Cpu := {initCpu with register_index := 0x300}

/-- Witness for C2 (amended): `F033` with index 0x300 leaves address 0
unchanged. -/
theorem c2_font_preserved_witness : (execute c2State 0xF033 0).ram 0 = c2State.ram 0 :=
  c2_font_preserved c2State 0xF033 0 0 (by norm_num) (fun _ _ => by decide)

lemma execute_8XY4 (s : Cpu) (X Y rnd : Nat) (hX : X < 16) (hY : Y < 16) :
    execute s (0x8004 + 256 * X + 16 * Y) rnd = (let s1 := set_flag s (decide (255 < s.register_vx X + s.register_vx Y)); {s1 with register_vx := upd s1.register_vx X ((s1.register_vx X + s.register_vx Y) % 256)}) := by
  have hms : (0x8004 + 256 * X + 16 * Y) / 4096 % 16 = 8 := by omega
  have hx : (0x8004 + 256 * X + 16 * Y) / 256 % 16 = X := by omega
  have hy : (0x8004 + 256 * X + 16 * Y) / 16 % 16 = Y := by omega
  have hn : (0x8004 + 256 * X + 16 * Y) % 16 = 4 := by omega
  unfold execute executeDecoded
  simp only [hms, hx, hy, hn]
  norm_num

/-- C3 (amended): for X ≠ 15, `add VX,VY` (8XY4) sets VF to 1 iff a + b > 255
and VX to (a + b) mod 256, where a, b are the pre-instruction values of VX and
VY.  For X = 15 the claim fails: the code writes the carry flag into VF = VX
first and then adds b to that flagged register, so V15 ends as
(carry + b) mod 256 instead of (a + b) mod 256. -/
theorem c3_add (s : Cpu) (X Y rnd : Nat) (hX : X < 16) (hY : Y < 16) :
    (X ≠ 15 → (execute s (0x8004 + 256 * X + 16 * Y) rnd).register_vx 15 = (if 255 < s.register_vx X + s.register_vx Y then 1 else 0) ∧ (execute s (0x8004 + 256 * X + 16 * Y) rnd).register_vx X = (s.register_vx X + s.register_vx Y) % 256) ∧
    (X = 15 → (execute s (0x8004 + 256 * X + 16 * Y) rnd).register_vx 15 = ((if 255 < s.register_vx X + s.register_vx Y then 1 else 0) + s.register_vx Y) % 256) := by
  rw [execute_8XY4 s X Y rnd hX hY]
  dsimp only [set_flag]
  constructor
  · intro hne
    constructor
    · show upd (upd s.register_vx 15 _) X _ 15 = _
      rw [upd, if_neg (fun h => hne h.symm)]
      rw [upd, if_pos rfl]
      by_cases hab : 255 < s.register_vx X + s.register_vx Y <;> simp [hab]
    · show upd (upd s.register_vx 15 _) X _ X = _
      rw [upd, if_pos rfl]
      rw [upd, if_neg hne]
  · intro h15
    subst h15
    show upd (upd s.register_vx 15 _) 15 _ 15 = _
    rw [upd, if_pos rfl]
    rw [upd, if_pos rfl]
    by_cases hab : 255 < s.register_vx 15 + s.register_vx Y <;> simp [hab]

/-- State with V1 = 200 and V2 = 100, inputs of the add witness. -/
def c3State : Cpu := {initCpu with register_vx := fun i => if i = 1 then 200 else if i = 2 then 100 else 0}

/-- Witness for C3 (amended) at X = 1, Y = 2: 200 + 100 = 300 gives carry 1
and V1 = 44. -/
theorem c3_add_witness : (execute c3State (0x8004 + 256 * 1 + 16 * 2) 0).register_vx 15 = 1 ∧ (execute c3State (0x8004 + 256 * 1 + 16 * 2) 0).register_vx 1 = 44 := by
  have h := (c3_add c3State 1 2 0 (by norm_num) (by norm_num)).1 (by norm_num)
  exact ⟨by rw [h.1]; decide, by rw [h.2]; decide⟩

/-- C10 (amended): the RAM accesses of `FX33` and `FX55` are taken at
`register_index` upward with no bounds check, so whenever the index register
exceeds 4095 they include an address outside the 4096-byte array; `FX1E` only
wraps the index register at 2^16, allowing it to exceed 4095; and the
instruction fetch reads `pc` and `pc + 1` unchecked. -/
theorem c10_no_bounds_check (s : Cpu) (X rnd : Nat) (hX : X < 16) (hidx : 4095 < s.register_index) :
    (∃ a, a ∈ memAccesses s (0xF033 + 256 * X) ∧ 4095 < a) ∧
    (∃ a, a ∈ memAccesses s (0xF055 + 256 * X) ∧ 4095 < a) ∧
    (execute s (0xF01E + 256 * X) rnd).register_index = (s.register_index + s.register_vx X) % 65536 ∧
    fetchAddrs s = [s.pc, s.pc + 1] := by
  have hms33 : (0xF033 + 256 * X) / 4096 % 16 = 15 := by omega
  have hnn33 : (0xF033 + 256 * X) % 256 = 0x33 := by omega
  have hms55 : (0xF055 + 256 * X) / 4096 % 16 = 15 := by omega
  have hnn55 : (0xF055 + 256 * X) % 256 = 0x55 := by omega
  have hx55 : (0xF055 + 256 * X) / 256 % 16 = X := by omega
  have hms1E : (0xF01E + 256 * X) / 4096 % 16 = 15 := by omega
  have hx1E : (0xF01E + 256 * X) / 256 % 16 = X := by omega
  have hnn1E : (0xF01E + 256 * X) % 256 = 0x1E := by omega
  refine ⟨⟨s.register_index, ?_, hidx⟩, ⟨s.register_index, ?_, hidx⟩, ?_, rfl⟩
  · unfold memAccesses
    simp only [hms33, hnn33]
    norm_num
  · unfold memAccesses
    simp only [hms55, hnn55, hx55]
    norm_num
    unfold regLoopAddrs
    rw [if_pos (Nat.zero_le X)]
    exact List.mem_cons_self _ _
  · unfold execute executeDecoded
    simp only [hms1E, hx1E, hnn1E]
    norm_num

/-- State with the index register at 4350 > 4095, for the bounds witness. -/
def c10State : Cpu := {initCpu with register_index := 4350}

/-- Witness for C10 (amended) at X = 0 with index register 4350. -/
theorem c10_no_bounds_check_witness :
    (∃ a, a ∈ memAccesses c10State (0xF033 + 256 * 0) ∧ 4095 < a) ∧
    (∃ a, a ∈ memAccesses c10State (0xF055 + 256 * 0) ∧ 4095 < a) ∧
    (execute c10State (0xF01E + 256 * 0) 0).register_index = (c10State.register_index + c10State.register_vx 0) % 65536 ∧
    fetchAddrs c10State = [c10State.pc, c10State.pc + 1] :=
  c10_no_bounds_check c10State 0 0 (by norm_num) (by decide)

end Chip8
